import Mathlib

/-!
# Verification of `irq_timings.c`

A shallow embedding of the edge-timing capture pipeline of `irq_timings.c`
(kernel module by Enlil Odisho).  The per-pin state (`struct gpio_data`),
the interrupt handler (`gpio_irq_handler`), the sysfs read path
(`gpio_show`) and the registration validation (`register_store`) are
translated into pure Lean functions.

Modelling conventions:
  * Timestamps are `Int` values in microseconds; `ktime_us_delta(a, b)` is
    modelled as `a - b`.  The C stores the delta into an `unsigned int`,
    i.e. reduces it modulo 2^32 (`uintCast`).
  * Kernel linked lists become Lean `List`s: `readQueue_head`/`readQueue_tail`
    become the front/back of `ReadQueue.elems`; `readQueueSize` is kept as a
    separate counter, exactly as in the C.
  * `kmalloc` results and `mutex_lock_interruptible` outcomes are explicit
    boolean parameters (`allocNodeOk`, `allocBufOk`, `lockOk`); a NULL
    pointer held in the state is `Option.none`, and dereferencing it is the
    distinguished result `HandlerResult.nullDeref`.
  * `kfree` is tracked by a ghost field `freed` recording, in order, every
    record (timings array) handed to `kfree`.
  * External collaborators (`gpio_request`, `request_irq`,
    `class_create_file`, sysfs attribute-name parsing) are outside the
    pipeline; the registry model assumes they succeed, which is all the
    claims about validation need.
-/

namespace IrqTimings

/-- `GPIO_COUNT` from irq_timings.c line 14. -/
def GPIO_COUNT : Nat := 100

/-- `BUFFER_SIZE` from irq_timings.c line 15: capacity of a timings buffer. -/
def BUFFER_SIZE : Nat := 512

/-- `MAX_READ_QUEUE_SIZE` from irq_timings.c line 16. -/
def MAX_READ_QUEUE_SIZE : Nat := 10

/-- `PAGE_SIZE` of the target kernel (4096 bytes), the bound used by
`gpio_show`'s `snprintf` loop. -/
def PAGE_SIZE : Nat := 4096

/-- 2^32, the modulus of the C type `unsigned int`. -/
def UINT_MOD : Int := 4294967296

/-- C conversion of a signed 64-bit value (the `s64` returned by
`ktime_us_delta`) to `unsigned int`: reduction modulo 2^32
(irq_timings.c line 96: `writeBuf[writeI] = ktime_us_delta(...)`). -/
def uintCast (i : Int) : Nat := (i % UINT_MOD).toNat

/-- The per-pin read queue: `readQueue_head`/`readQueue_tail`/`readQueueSize`
of `struct gpio_data` (lines 59-61).  `elems` lists the queued timings
records head (oldest) first; `size` mirrors the C `readQueueSize` counter;
`freed` is a ghost log of every record passed to `kfree`, in order. -/
structure ReadQueue where
  elems : List (List Nat)
  size : Nat
  freed : List (List Nat)
deriving DecidableEq, Repr

/-- A freshly initialized queue (`register_store` lines 281-283). -/
def ReadQueue.empty : ReadQueue := { elems := [], size := 0, freed := [] }

/-- Enqueue with drop-oldest eviction, lines 119-137 of `gpio_irq_handler`:
append the node at the tail, increment `readQueueSize`, and if the new size
exceeds `MAX_READ_QUEUE_SIZE`, unlink and `kfree` the head node and
decrement the size back.  The `[]` match arm is unreachable (the list just
received an element). -/
def queue_append (q : ReadQueue) (rcd : List Nat) : ReadQueue :=
  if MAX_READ_QUEUE_SIZE < q.size + 1 then
    match q.elems ++ [rcd] with
    | [] => { elems := [], size := q.size + 1 - 1, freed := q.freed }
    | h :: t => { elems := t, size := q.size + 1 - 1, freed := q.freed ++ [h] }
  else
    { elems := q.elems ++ [rcd], size := q.size + 1, freed := q.freed }

/-- Dequeue of the oldest record, lines 176-191 of `gpio_show`: if the head
is NULL return nothing; otherwise unlink the head (collapsing head and tail
when they coincide) and decrement `readQueueSize`.  The record is not freed
here — `gpio_show` frees it only after serialization (lines 217-218). -/
def queue_pop (q : ReadQueue) : Option (List Nat) × ReadQueue :=
  match q.elems with
  | [] => (none, q)
  | rcd :: rest => (some rcd, { elems := rest, size := q.size - 1, freed := q.freed })

/-- `struct gpio_data` (lines 51-63), restricted to the fields the pipeline
reads: the filling buffer (`writeBuf`, with `writeI` = its length; `none`
models a NULL pointer from a failed `kmalloc`), the previous event
timestamp, and the read queue.  `irq_number` and the sysfs attribute are
external-collaborator bookkeeping and are omitted. -/
structure GpioData where
  writeBuf : Option (List Nat)
  lastInterruptTime : Int
  queue : ReadQueue
deriving DecidableEq, Repr

/-- Outcome of one `gpio_irq_handler` invocation: either the updated pin
state, or a NULL-pointer dereference (a kernel oops). -/
inductive HandlerResult where
  | ok (g : GpioData)
  | nullDeref
deriving DecidableEq, Repr

/-- `gpio_irq_handler` (lines 88-141).  `timeNow` is `ktime_get()`;
`allocNodeOk` / `allocBufOk` tell whether the two `kmalloc` calls succeed,
`lockOk` whether `mutex_lock_interruptible` returns 0.

Step by step, following the C:
  * `writeBuf[writeI] = (unsigned int) ktime_us_delta(timeNow, lastInterruptTime)`
    — dereferences `writeBuf`, so a NULL `writeBuf` is an oops;
  * `lastInterruptTime = timeNow`; `++writeI`;
  * if `writeI >= BUFFER_SIZE`: allocate a node (the C stores through the
    node pointer without a NULL check, so a failed allocation is an oops),
    move `writeBuf` into it, allocate a fresh `writeBuf` (unchecked; failure
    leaves a NULL pointer for the next invocation), reset `writeI`;
    then take the queue lock — on interruption free the node and its
    timings and return — and otherwise run the append/eviction of
    `queue_append`. -/
def gpio_irq_handler (allocNodeOk allocBufOk lockOk : Bool) (timeNow : Int)
    (g : GpioData) : HandlerResult :=
  match g.writeBuf with
  | none => .nullDeref
  | some wb =>
    let wb' := wb ++ [uintCast (timeNow - g.lastInterruptTime)]
    if BUFFER_SIZE ≤ wb'.length then
      if allocNodeOk = false then .nullDeref
      else
        let newBuf : Option (List Nat) := if allocBufOk then some [] else none
        if lockOk = false then
          .ok { writeBuf := newBuf, lastInterruptTime := timeNow,
                queue := { g.queue with freed := g.queue.freed ++ [wb'] } }
        else
          .ok { writeBuf := newBuf, lastInterruptTime := timeNow,
                queue := queue_append g.queue wb' }
    else
      .ok { writeBuf := some wb', lastInterruptTime := timeNow, queue := g.queue }

/-- The pin state built by `register_store` (lines 278-283): fresh empty
write buffer (`writeI = 0`), `lastInterruptTime = ktime_get()` taken at
registration, and an empty read queue. -/
def registerGpioData (t0 : Int) : GpioData :=
  { writeBuf := some [], lastInterruptTime := t0, queue := ReadQueue.empty }

/-- The `registered_gpios` array (line 63): slot `i` holds the state of pin
`i` when registered, `none` otherwise. -/
abbrev Registry := List (Option GpioData)

/-- Error outcomes of `register_store`'s validation (lines 241-253):
`outOfRange` is the `-EINVAL` for `gpio >= GPIO_COUNT`, `alreadyRegistered`
the `-1` for a non-NULL `registered_gpios[gpio]`. -/
inductive RegStoreError where
  | outOfRange
  | alreadyRegistered
deriving DecidableEq, Repr

/-- `register_store` (lines 226-316) with the input already parsed and the
external collaborators (gpio request, sysfs file, irq setup) assumed to
succeed: reject an out-of-range pin, reject a pin whose registry slot is
occupied — both without touching the registry — and otherwise install a
fresh `registerGpioData` in the pin's slot. -/
def register_store (reg : Registry) (gpio : Nat) (t0 : Int) :
    Option RegStoreError × Registry :=
  if GPIO_COUNT ≤ gpio then (some .outOfRange, reg)
  else if (reg.getD gpio none).isSome then (some .alreadyRegistered, reg)
  else (none, reg.set gpio (some (registerGpioData t0)))

/-- Character count of `snprintf("%u", n)` for `n < 2^32` (1-10 decimal
digits); the `\n` of the `"%u\n"` format adds one more byte at each use. -/
def decLen (n : Nat) : Nat :=
  if n < 10 then 1 else if n < 100 then 2 else if n < 1000 then 3
  else if n < 10000 then 4 else if n < 100000 then 5 else if n < 1000000 then 6
  else if n < 10000000 then 7 else if n < 100000000 then 8
  else if n < 1000000000 then 9 else 10

/-- The serialization loop of `gpio_show` (lines 194-214), computing the
final `written` counter.  Each iteration performs
`status = snprintf(buf + written, PAGE_SIZE - written, "%u\n", timings[bufI])`;
kernel `snprintf` returns the length the full output would have
(`decLen t + 1`), irrespective of truncation, and that length is added to
`written` unconditionally.  The loop breaks only when `written` lands on
`PAGE_SIZE` exactly.  (The `status < 0` error branch is dead: `snprintf`
never returns a negative value here.) -/
def gpio_serialize_count : List Nat → Nat → Nat
  | [], written => written
  | t :: rest, written =>
    if written + (decLen t + 1) = PAGE_SIZE then written + (decLen t + 1)
    else gpio_serialize_count rest (written + (decLen t + 1))

/-- Result of `gpio_show`: `-1` on an unregistered pin, `-ERESTARTSYS` when
the lock acquisition is interrupted, otherwise the `written` byte count
(0 when the queue was empty). -/
inductive ShowResult where
  | notRegistered
  | restartSys
  | bytes (written : Nat)
deriving DecidableEq, Repr

/-- `gpio_show` (lines 146-221) for pin `gpio`, with the attribute-name
parsing already done.  Following the C: a NULL `registered_gpios[gpio]`
returns `-1`; an interrupted `mutex_lock_interruptible` returns
`-ERESTARTSYS` with nothing changed; an empty queue returns 0 bytes with
nothing changed; otherwise the head record is popped (`queue_pop`),
serialized (`gpio_serialize_count`), and freed. -/
def gpio_show (reg : Registry) (gpio : Nat) (lockOk : Bool) :
    ShowResult × Registry :=
  match reg.getD gpio none with
  | none => (.notRegistered, reg)
  | some g =>
    if lockOk = false then (.restartSys, reg)
    else
      match queue_pop g.queue with
      | (none, _) => (.bytes 0, reg)
      | (some rcd, q') =>
        let g' : GpioData := { g with queue := { q' with freed := q'.freed ++ [rcd] } }
        (.bytes (gpio_serialize_count rcd 0), reg.set gpio (some g'))

/-! ## Experiment harness

Iterated applications of the operations above, used to state the claims:
a run of the interrupt handler over a list of event timestamps (all
allocations succeeding and the lock uncontended), iterated queue appends
and pops, and the flattened sequence of intervals the producer has stored. -/

/-- Feed event timestamps to `gpio_irq_handler` in order, with every
allocation succeeding and the lock always acquired.  (With those flags the
`nullDeref` arm is unreachable from a state whose `writeBuf` is non-NULL.) -/
def runEvents : GpioData → List Int → GpioData
  | g, [] => g
  | g, t :: ts =>
    match gpio_irq_handler true true true t g with
    | .ok g' => runEvents g' ts
    | .nullDeref => g

/-- Append a list of records to the queue in order. -/
def appendAll (q : ReadQueue) (rs : List (List Nat)) : ReadQueue :=
  rs.foldl queue_append q

/-- Pop `n` times, collecting the returned records in order. -/
def popN : ReadQueue → Nat → List (List Nat) × ReadQueue
  | q, 0 => ([], q)
  | q, n + 1 =>
    match queue_pop q with
    | (none, q') => ([], q')
    | (some rcd, q') =>
      let p := popN q' n
      (rcd :: p.1, p.2)

/-- Every interval value the producer has stored for a pin, in order:
the records handed to the queue — those since evicted or drained appear in
`freed`, the rest in `elems` — flattened, followed by the partially filled
`writeBuf`. -/
def producedIntervals (g : GpioData) : List Nat :=
  (g.queue.freed ++ g.queue.elems).flatten ++ g.writeBuf.getD []

/-- Consecutive deltas of a timestamp sequence starting from `t0`, each
reduced modulo 2^32 as the C's `unsigned int` store does. -/
def diffsMod (t0 : Int) : List Int → List Nat
  | [] => []
  | t :: ts => uintCast (t - t0) :: diffsMod t ts

/-! ## Queue lemmas -/

lemma queue_append_lt (q : ReadQueue) (rcd : List Nat)
    (h : q.size + 1 ≤ MAX_READ_QUEUE_SIZE) :
    queue_append q rcd =
      { elems := q.elems ++ [rcd], size := q.size + 1, freed := q.freed } := by
  unfold queue_append
  rw [if_neg (by omega)]

lemma queue_append_full (q : ReadQueue) (rcd h : List Nat)
    (t : List (List Nat)) (hsz : MAX_READ_QUEUE_SIZE < q.size + 1)
    (helems : q.elems = h :: t) :
    queue_append q rcd =
      { elems := t ++ [rcd], size := q.size + 1 - 1, freed := q.freed ++ [h] } := by
  unfold queue_append
  rw [if_pos hsz, helems]
  rfl

lemma appendAll_nil (q : ReadQueue) : appendAll q [] = q := rfl

lemma appendAll_cons (q : ReadQueue) (r : List Nat) (rs : List (List Nat)) :
    appendAll q (r :: rs) = appendAll (queue_append q r) rs := rfl

/-- Complete characterization of a run of appends on a size-consistent,
in-bounds queue: the survivors are the newest `MAX_READ_QUEUE_SIZE`
records, the size saturates at the capacity, and the evicted records are
exactly the oldest ones, freed in order. -/
lemma appendAll_spec (rs : List (List Nat)) : ∀ q : ReadQueue,
    q.size = q.elems.length → q.size ≤ MAX_READ_QUEUE_SIZE →
    (appendAll q rs).elems =
      (q.elems ++ rs).drop (q.elems.length + rs.length - MAX_READ_QUEUE_SIZE) ∧
    (appendAll q rs).size = min (q.elems.length + rs.length) MAX_READ_QUEUE_SIZE ∧
    (appendAll q rs).freed =
      q.freed ++ (q.elems ++ rs).take (q.elems.length + rs.length - MAX_READ_QUEUE_SIZE) := by
  induction rs with
  | nil =>
    intro q hsz hle
    have h0 : q.elems.length + ([] : List (List Nat)).length - MAX_READ_QUEUE_SIZE = 0 := by
      simp only [List.length_nil]
      omega
    rw [appendAll_nil, h0]
    refine ⟨by simp, ?_, by simp⟩
    simp only [List.length_nil, Nat.add_zero]
    rw [min_eq_left (by omega)]
    omega
  | cons r rs ih =>
    intro q hsz hle
    rw [appendAll_cons]
    by_cases hfull : q.size + 1 ≤ MAX_READ_QUEUE_SIZE
    · rw [queue_append_lt q r hfull]
      obtain ⟨h1, h2, h3⟩ :=
        ih { elems := q.elems ++ [r], size := q.size + 1, freed := q.freed }
          (by show q.size + 1 = (q.elems ++ [r]).length
              simp only [List.length_append, List.length_singleton, List.length_cons, List.length_nil]
              omega)
          (by show q.size + 1 ≤ MAX_READ_QUEUE_SIZE; omega)
      simp only at h1 h2 h3
      refine ⟨?_, ?_, ?_⟩
      · rw [h1, List.append_assoc, List.singleton_append]
        congr 1
        simp only [List.length_append, List.length_singleton, List.length_cons, List.length_nil]
        omega
      · rw [h2]
        congr 1
        simp only [List.length_append, List.length_singleton, List.length_cons, List.length_nil]
        omega
      · rw [h3, List.append_assoc, List.singleton_append]
        congr 2
        simp only [List.length_append, List.length_singleton, List.length_cons, List.length_nil]
        omega
    · have hlen : q.elems.length = MAX_READ_QUEUE_SIZE := by omega
      have hpos : 0 < MAX_READ_QUEUE_SIZE := by decide
      obtain ⟨h, t, helems⟩ : ∃ h t, q.elems = h :: t := by
        cases hcase : q.elems with
        | nil => rw [hcase] at hlen; simp at hlen; omega
        | cons a l => exact ⟨a, l, rfl⟩
      rw [queue_append_full q r h t (by omega) helems]
      have htlen : t.length + 1 = MAX_READ_QUEUE_SIZE := by
        rw [helems] at hlen
        simpa using hlen
      obtain ⟨h1, h2, h3⟩ :=
        ih { elems := t ++ [r], size := q.size + 1 - 1, freed := q.freed ++ [h] }
          (by show q.size + 1 - 1 = (t ++ [r]).length
              simp only [List.length_append, List.length_singleton, List.length_cons, List.length_nil]
              omega)
          (by show q.size + 1 - 1 ≤ MAX_READ_QUEUE_SIZE; omega)
      simp only at h1 h2 h3
      have hi1 : (t ++ [r]).length + rs.length - MAX_READ_QUEUE_SIZE = rs.length := by
        simp only [List.length_append, List.length_singleton, List.length_cons, List.length_nil]
        omega
      have hi2 : (h :: t).length + (r :: rs).length - MAX_READ_QUEUE_SIZE
          = rs.length + 1 := by
        simp only [List.length_cons, List.length_append, List.length_singleton, List.length_nil]
        omega
      refine ⟨?_, ?_, ?_⟩
      · rw [h1, helems, hi1, hi2, List.cons_append, List.drop_succ_cons,
          List.append_assoc, List.singleton_append]
      · rw [h2, helems]
        have hm1 : min ((t ++ [r]).length + rs.length) MAX_READ_QUEUE_SIZE
            = MAX_READ_QUEUE_SIZE := by
          apply min_eq_right
          simp only [List.length_append, List.length_singleton, List.length_cons, List.length_nil]
          omega
        have hm2 : min ((h :: t).length + (r :: rs).length) MAX_READ_QUEUE_SIZE
            = MAX_READ_QUEUE_SIZE := by
          apply min_eq_right
          simp only [List.length_cons, List.length_nil]
          omega
        rw [hm1, hm2]
      · rw [h3, helems, hi1, hi2, List.cons_append, List.take_succ_cons,
          List.append_assoc, List.singleton_append, List.append_assoc,
          List.singleton_append]

/-- Size bound preservation for a single append (lines 119-137). -/
lemma queue_append_size_le (q : ReadQueue) (rcd : List Nat)
    (h : q.size ≤ MAX_READ_QUEUE_SIZE) :
    (queue_append q rcd).size ≤ MAX_READ_QUEUE_SIZE := by
  unfold queue_append
  split
  · split
    all_goals simp only
    all_goals omega
  · simp only
    omega

/-- `appendAll_spec` specialized to the empty queue. -/
lemma appendAll_empty (rs : List (List Nat)) :
    (appendAll ReadQueue.empty rs).elems = rs.drop (rs.length - MAX_READ_QUEUE_SIZE) ∧
    (appendAll ReadQueue.empty rs).size = min rs.length MAX_READ_QUEUE_SIZE ∧
    (appendAll ReadQueue.empty rs).freed = rs.take (rs.length - MAX_READ_QUEUE_SIZE) := by
  have hspec := appendAll_spec rs ReadQueue.empty rfl (by decide)
  simpa [ReadQueue.empty] using hspec

/-- Popping as many times as the queue holds returns its contents in order. -/
lemma popN_all (rs : List (List Nat)) : ∀ q : ReadQueue,
    q.elems = rs → (popN q rs.length).1 = rs := by
  induction rs with
  | nil => intro q _; rfl
  | cons r rs ih =>
    intro q helems
    show (popN q (rs.length + 1)).1 = r :: rs
    unfold popN queue_pop
    rw [helems]
    simp only
    rw [ih { elems := rs, size := q.size - 1, freed := q.freed } rfl]

/-! ## Claims about the bounded record queue -/

/-- C2: for every N with 1 ≤ N ≤ MAX_READ_QUEUE_SIZE, appending records
r1..rN to an initially empty per-pin queue and then popping N times yields
exactly r1..rN in that order — the queue is FIFO. -/
theorem queue_fifo (rs : List (List Nat)) (_h1 : 1 ≤ rs.length)
    (h2 : rs.length ≤ MAX_READ_QUEUE_SIZE) :
    (popN (appendAll ReadQueue.empty rs) rs.length).1 = rs := by
  apply popN_all
  rw [(appendAll_empty rs).1, Nat.sub_eq_zero_of_le h2, List.drop_zero]

/-- Witness for `queue_fifo` at the record list [[1]], [[2]], [[3]]. -/
theorem queue_fifo_witness :
    1 ≤ ([[1], [2], [3]] : List (List Nat)).length ∧
    ([[1], [2], [3]] : List (List Nat)).length ≤ MAX_READ_QUEUE_SIZE ∧
    (popN (appendAll ReadQueue.empty [[1], [2], [3]])
      ([[1], [2], [3]] : List (List Nat)).length).1 = [[1], [2], [3]] :=
  ⟨by decide, by decide, queue_fifo [[1], [2], [3]] (by decide) (by decide)⟩

/-- C3: appending MAX_READ_QUEUE_SIZE + k records (k ≥ 1) to an initially
empty queue leaves exactly the most recent MAX_READ_QUEUE_SIZE records,
oldest-first, and the k evicted (oldest) records are each freed exactly
once, in eviction order — no double free (the `freed` log lists the first
k records once each) and no leak (every appended record is either still
queued or in the freed log). -/
theorem queue_overflow (rs : List (List Nat)) (k : Nat) (hk : 1 ≤ k)
    (hlen : rs.length = MAX_READ_QUEUE_SIZE + k) :
    (appendAll ReadQueue.empty rs).elems = rs.drop k ∧
    (appendAll ReadQueue.empty rs).freed = rs.take k ∧
    (appendAll ReadQueue.empty rs).size = MAX_READ_QUEUE_SIZE := by
  obtain ⟨he, hs, hf⟩ := appendAll_empty rs
  have hidx : rs.length - MAX_READ_QUEUE_SIZE = k := by omega
  rw [he, hf, hs, hidx, hlen, min_eq_right (by omega)]
  exact ⟨rfl, rfl, rfl⟩

/-- Witness for `queue_overflow` at eleven singleton records (k = 1). -/
theorem queue_overflow_witness :
    (appendAll ReadQueue.empty
      [[1], [2], [3], [4], [5], [6], [7], [8], [9], [10], [11]]).elems
      = [[2], [3], [4], [5], [6], [7], [8], [9], [10], [11]] ∧
    (appendAll ReadQueue.empty
      [[1], [2], [3], [4], [5], [6], [7], [8], [9], [10], [11]]).freed = [[1]] := by
  have h := queue_overflow
    [[1], [2], [3], [4], [5], [6], [7], [8], [9], [10], [11]] 1
    (by decide) (by decide)
  exact ⟨h.1, h.2.1⟩

/-- C4: the bound `readQueueSize ≤ MAX_READ_QUEUE_SIZE` holds of a freshly
registered pin and is preserved by every interrupt-handler invocation that
returns (covering the append with single-head eviction, the lock-interrupted
path and the non-rotating path) and by the consumer's pop. -/
theorem readQueueSize_bounded :
    (∀ t0 : Int, (registerGpioData t0).queue.size ≤ MAX_READ_QUEUE_SIZE) ∧
    (∀ (a b l : Bool) (t : Int) (g g' : GpioData),
      g.queue.size ≤ MAX_READ_QUEUE_SIZE →
      gpio_irq_handler a b l t g = .ok g' →
      g'.queue.size ≤ MAX_READ_QUEUE_SIZE) ∧
    (∀ q : ReadQueue, q.size ≤ MAX_READ_QUEUE_SIZE →
      (queue_pop q).2.size ≤ MAX_READ_QUEUE_SIZE) := by
  refine ⟨?_, ?_, ?_⟩
  · intro t0
    exact Nat.zero_le _
  · intro a b l t g g' hq h
    unfold gpio_irq_handler at h
    cases hwb : g.writeBuf with
    | none =>
      rw [hwb] at h
      exact absurd h (by simp)
    | some wb =>
      rw [hwb] at h
      simp only at h
      split at h
      · split at h
        · exact absurd h (by simp)
        · split at h
          · injection h with h2
            subst h2
            simpa using hq
          · injection h with h2
            subst h2
            simpa using queue_append_size_le g.queue _ hq
      · injection h with h2
        subst h2
        simpa using hq
  · intro q hq
    unfold queue_pop
    split
    · exact hq
    · simp only
      omega

/-- Witness for `readQueueSize_bounded`: the fresh pin, one concrete
handler step, and one concrete pop, all within the bound. -/
theorem readQueueSize_bounded_witness :
    (registerGpioData 0).queue.size ≤ MAX_READ_QUEUE_SIZE ∧
    ({ writeBuf := some [5], lastInterruptTime := 5,
       queue := ReadQueue.empty } : GpioData).queue.size ≤ MAX_READ_QUEUE_SIZE ∧
    (queue_pop { elems := [[1]], size := 1, freed := [] }).2.size
      ≤ MAX_READ_QUEUE_SIZE :=
  ⟨readQueueSize_bounded.1 0,
   readQueueSize_bounded.2.1 true true true 5 (registerGpioData 0) _
     (by decide) (by decide),
   readQueueSize_bounded.2.2 { elems := [[1]], size := 1, freed := [] } (by decide)⟩

/-! ## Claims about registration -/

/-- C5: `register_store` rejects every pin at or beyond GPIO_COUNT with the
out-of-range error and every pin with a live registration with the
already-registered error, leaving the registry unchanged in both cases;
every in-range, unregistered pin passes the validation. -/
theorem register_validation (reg : Registry) (gpio : Nat) (t0 : Int) :
    (GPIO_COUNT ≤ gpio →
      register_store reg gpio t0 = (some .outOfRange, reg)) ∧
    (gpio < GPIO_COUNT → (reg.getD gpio none).isSome = true →
      register_store reg gpio t0 = (some .alreadyRegistered, reg)) ∧
    (gpio < GPIO_COUNT → reg.getD gpio none = none →
      (register_store reg gpio t0).1 = none) := by
  refine ⟨?_, ?_, ?_⟩
  · intro h
    unfold register_store
    rw [if_pos h]
  · intro h1 h2
    unfold register_store
    rw [if_neg (by omega), if_pos h2]
  · intro h1 h2
    unfold register_store
    rw [if_neg (by omega), if_neg (by rw [h2]; simp)]

/-- Witness for `register_validation`: pin 100 is rejected out-of-range
(boundary value), a second registration of pin 0 is rejected, and pin 5
passes validation on an empty registry. -/
theorem register_validation_witness :
    register_store [] 100 0 = (some .outOfRange, []) ∧
    register_store [some (registerGpioData 0)] 0 1
      = (some .alreadyRegistered, [some (registerGpioData 0)]) ∧
    (register_store [] 5 0).1 = none :=
  ⟨(register_validation [] 100 0).1 (by decide),
   (register_validation [some (registerGpioData 0)] 0 1).2.1 (by decide) (by decide),
   (register_validation [] 5 0).2.2 (by decide) (by decide)⟩

/-! ## Claims about the drain path -/

/-- C6 (amended): draining a registered pin whose queue is empty yields
zero bytes — not an error — and leaves all state unchanged; draining an
unregistered pin, however, fails with the `-1` error return. -/
theorem drain_empty_semantics :
    (∀ (reg : Registry) (gpio : Nat) (g : GpioData),
      reg.getD gpio none = some g → g.queue.elems = [] →
      gpio_show reg gpio true = (.bytes 0, reg)) ∧
    (∀ (reg : Registry) (gpio : Nat),
      reg.getD gpio none = none →
      gpio_show reg gpio true = (.notRegistered, reg)) := by
  constructor
  · intro reg gpio g hg he
    unfold gpio_show
    rw [hg]
    simp [queue_pop, he]
  · intro reg gpio hg
    unfold gpio_show
    rw [hg]

/-- Witness for `drain_empty_semantics`: a one-pin registry with an empty
queue drains to zero bytes, and pin 3 of an empty registry is rejected. -/
theorem drain_empty_semantics_witness :
    gpio_show [some (registerGpioData 0)] 0 true
      = (.bytes 0, [some (registerGpioData 0)]) ∧
    gpio_show ([] : Registry) 3 true = (.notRegistered, ([] : Registry)) :=
  ⟨drain_empty_semantics.1 [some (registerGpioData 0)] 0 (registerGpioData 0)
     rfl rfl,
   drain_empty_semantics.2 [] 3 rfl⟩

/-- C6 counterexample: on an unregistered pin `gpio_show` returns the `-1`
error (`notRegistered`), which is not the empty (zero-byte) result the
claim promises. -/
theorem drain_unregistered_counterexample :
    gpio_show ([] : Registry) 0 true = (.notRegistered, ([] : Registry)) ∧
    ShowResult.notRegistered ≠ ShowResult.bytes 0 := by
  decide

/-- C9: if the drain's `mutex_lock_interruptible` is interrupted, the read
returns `-ERESTARTSYS` (a retry indication) and the registry — including
the pin's queue contents and `readQueueSize` — is exactly as before. -/
theorem drain_interrupted_unchanged (reg : Registry) (gpio : Nat)
    (g : GpioData) (h : reg.getD gpio none = some g) :
    gpio_show reg gpio false = (.restartSys, reg) := by
  unfold gpio_show
  rw [h]
  simp

/-- Witness for `drain_interrupted_unchanged` on a one-pin registry. -/
theorem drain_interrupted_unchanged_witness :
    gpio_show [some (registerGpioData 0)] 0 false
      = (.restartSys, [some (registerGpioData 0)]) :=
  drain_interrupted_unchanged [some (registerGpioData 0)] 0
    (registerGpioData 0) rfl

/-! ## Code bugs -/

set_option maxRecDepth 100000 in
/-- C7 (code bug): when the pin's buffer holds 511 intervals and the next
edge arrives while `kmalloc` cannot supply the `TimingsNode`, the handler
dereferences the NULL allocation result (line 104 stores through the
unchecked pointer) — a kernel oops, contradicting the claim that an
allocation failure loses at most that event's measurement. -/
theorem handler_alloc_failure_null_deref :
    gpio_irq_handler false true true 1
      { writeBuf := some (List.replicate 511 0), lastInterruptTime := 0,
        queue := ReadQueue.empty } = .nullDeref := by
  decide

set_option maxRecDepth 100000 in
/-- C8 (code bug): serializing a full record of 512 maximal intervals
(each `4294967295`, 11 bytes as `"%u\n"`) drives the `written` counter from
4092 straight to 4103, so the `written == PAGE_SIZE` break never fires and
the final returned count is 5632 > PAGE_SIZE; past 4096 every further
`snprintf` call also receives an underflowed size bound and writes beyond
the page. -/
theorem serialize_count_exceeds_page :
    gpio_serialize_count (List.replicate BUFFER_SIZE 4294967295) 0 = 5632 ∧
    PAGE_SIZE < gpio_serialize_count (List.replicate BUFFER_SIZE 4294967295) 0 := by
  decide

/-! ## The producer's interval stream -/

/-- On the fast path (all allocations succeed, lock uncontended) a
non-filling event just extends the write buffer. -/
lemma handler_true_norot (t : Int) (g : GpioData) (wb : List Nat)
    (hwb : g.writeBuf = some wb) (hlen : wb.length + 1 < BUFFER_SIZE) :
    gpio_irq_handler true true true t g =
      .ok { writeBuf := some (wb ++ [uintCast (t - g.lastInterruptTime)]),
            lastInterruptTime := t, queue := g.queue } := by
  unfold gpio_irq_handler
  rw [hwb]
  simp only [List.length_append, List.length_singleton, List.length_cons,
    List.length_nil]
  rw [if_neg (by omega)]

/-- On the fast path a buffer-filling event rotates the buffer into the
queue and installs a fresh empty one. -/
lemma handler_true_rot (t : Int) (g : GpioData) (wb : List Nat)
    (hwb : g.writeBuf = some wb) (hlen : BUFFER_SIZE ≤ wb.length + 1) :
    gpio_irq_handler true true true t g =
      .ok { writeBuf := some [], lastInterruptTime := t,
            queue := queue_append g.queue
              (wb ++ [uintCast (t - g.lastInterruptTime)]) } := by
  unfold gpio_irq_handler
  rw [hwb]
  simp only [List.length_append, List.length_singleton, List.length_cons,
    List.length_nil]
  rw [if_pos (by omega)]
  simp

/-- One append extends the flattened freed-plus-queued record stream by
exactly the appended record, eviction or not. -/
lemma produced_queue_append (q : ReadQueue) (rcd : List Nat) :
    ((queue_append q rcd).freed ++ (queue_append q rcd).elems).flatten
      = (q.freed ++ q.elems).flatten ++ rcd := by
  unfold queue_append
  split
  · split
    · rename_i heq
      exact absurd heq (by simp)
    · rename_i h t heq
      simp only
      have hsplit : q.freed ++ [h] ++ t = q.freed ++ (q.elems ++ [rcd]) := by
        rw [List.append_assoc, List.singleton_append, ← heq]
      rw [hsplit]
      simp [List.flatten_append]
  · simp [List.flatten_append]

/-- Records reachable after an append were reachable before, or are the
appended record. -/
lemma queue_append_mem (q : ReadQueue) (rcd r : List Nat)
    (h : r ∈ (queue_append q rcd).freed ++ (queue_append q rcd).elems) :
    r ∈ q.freed ++ q.elems ∨ r = rcd := by
  unfold queue_append at h
  split at h
  · split at h
    · rename_i heq
      exact absurd heq (by simp)
    · rename_i hd tl heq
      simp only [List.mem_append] at h
      have hmem : hd ∈ q.elems ++ [rcd] ∧ ∀ x ∈ tl, x ∈ q.elems ++ [rcd] := by
        constructor
        · rw [heq]; exact List.mem_cons_self hd tl
        · intro x hx; rw [heq]; exact List.mem_cons_of_mem hd hx
      rcases h with (h | h) | h
      · exact Or.inl (List.mem_append_left _ h)
      · rcases List.mem_singleton.mp h with rfl
        rcases List.mem_append.mp hmem.1 with hm | hm
        · exact Or.inl (List.mem_append_right _ hm)
        · exact Or.inr (List.mem_singleton.mp hm)
      · rcases List.mem_append.mp (hmem.2 r h) with hm | hm
        · exact Or.inl (List.mem_append_right _ hm)
        · exact Or.inr (List.mem_singleton.mp hm)
  · simp only [List.mem_append] at h
    rcases h with h | h | h
    · exact Or.inl (List.mem_append_left _ h)
    · exact Or.inl (List.mem_append_right _ h)
    · exact Or.inr (List.mem_singleton.mp h)

lemma runEvents_cons_ok (g g' : GpioData) (t : Int) (ts : List Int)
    (h : gpio_irq_handler true true true t g = .ok g') :
    runEvents g (t :: ts) = runEvents g' ts := by
  show (match gpio_irq_handler true true true t g with
        | .ok g' => runEvents g' ts
        | .nullDeref => g) = runEvents g' ts
  rw [h]

/-- Main invariant of a fast-path run: starting from a state whose write
buffer is below capacity and whose reachable records are all full, the
flattened produced stream extends by the event deltas (mod 2^32), and
every reachable record stays exactly BUFFER_SIZE long. -/
lemma runEvents_produced (ts : List Int) : ∀ (g : GpioData) (wb : List Nat),
    g.writeBuf = some wb → wb.length < BUFFER_SIZE →
    (∀ r ∈ g.queue.freed ++ g.queue.elems, r.length = BUFFER_SIZE) →
    producedIntervals (runEvents g ts) =
      producedIntervals g ++ diffsMod g.lastInterruptTime ts ∧
    (∀ r ∈ (runEvents g ts).queue.freed ++ (runEvents g ts).queue.elems,
      r.length = BUFFER_SIZE) := by
  induction ts with
  | nil =>
    intro g wb hwb hlt hrec
    exact ⟨by simp [runEvents, diffsMod], hrec⟩
  | cons t ts ih =>
    intro g wb hwb hlt hrec
    by_cases hfull : wb.length + 1 < BUFFER_SIZE
    · rw [runEvents_cons_ok g
        { writeBuf := some (wb ++ [uintCast (t - g.lastInterruptTime)]),
          lastInterruptTime := t, queue := g.queue } t ts
        (handler_true_norot t g wb hwb hfull)]
      obtain ⟨hp, hr⟩ := ih
        { writeBuf := some (wb ++ [uintCast (t - g.lastInterruptTime)]),
          lastInterruptTime := t, queue := g.queue }
        (wb ++ [uintCast (t - g.lastInterruptTime)]) rfl
        (by simp only [List.length_append, List.length_singleton,
              List.length_cons, List.length_nil]
            omega)
        hrec
      refine ⟨?_, hr⟩
      rw [hp]
      have hgp : producedIntervals
          { writeBuf := some (wb ++ [uintCast (t - g.lastInterruptTime)]),
            lastInterruptTime := t, queue := g.queue }
          = producedIntervals g ++ [uintCast (t - g.lastInterruptTime)] := by
        unfold producedIntervals
        rw [hwb]
        simp [List.append_assoc]
      rw [hgp, List.append_assoc]
      rfl
    · rw [runEvents_cons_ok g
        { writeBuf := some [], lastInterruptTime := t,
          queue := queue_append g.queue
            (wb ++ [uintCast (t - g.lastInterruptTime)]) } t ts
        (handler_true_rot t g wb hwb (by omega))]
      obtain ⟨hp, hr⟩ := ih
        { writeBuf := some [], lastInterruptTime := t,
          queue := queue_append g.queue
            (wb ++ [uintCast (t - g.lastInterruptTime)]) }
        [] rfl (by decide)
        (by intro r hrm
            rcases queue_append_mem g.queue _ r hrm with hm | hm
            · exact hrec r hm
            · rw [hm]
              simp only [List.length_append, List.length_singleton,
                List.length_cons, List.length_nil]
              omega)
      refine ⟨?_, hr⟩
      rw [hp]
      have hgp : producedIntervals
          { writeBuf := some [], lastInterruptTime := t,
            queue := queue_append g.queue
              (wb ++ [uintCast (t - g.lastInterruptTime)]) }
          = producedIntervals g ++ [uintCast (t - g.lastInterruptTime)] := by
        unfold producedIntervals
        rw [hwb]
        simp only [Option.getD_some, List.append_nil]
        rw [produced_queue_append]
        simp [List.append_assoc]
      rw [hgp, List.append_assoc]
      rfl

/-! ## Claims about the produced interval stream -/

/-- C1 counterexample: register at t0 = 0 and deliver the single strictly
increasing event t1 = 2^32.  The claim predicts the stored interval
sequence [t1 - t0] = [4294967296]; the code stores [0], because the
microsecond delta is truncated to `unsigned int`. -/
theorem first_interval_wrap_counterexample :
    (0 : Int) < 4294967296 ∧
    producedIntervals (runEvents (registerGpioData 0) [4294967296]) = [0] ∧
    (0 : Nat) ≠ 4294967296 := by
  decide

/-- C1 (amended): for strictly increasing event timestamps t1 < ... < tM
delivered in order to a pin registered at t0, the flattened sequence of
stored interval values equals [(t1-t0) mod 2^32, (t2-t1) mod 2^32, ...] —
each delta reduced to `unsigned int`, so equal to the plain deltas exactly
when every gap is below 2^32 — with the first interval measured against
the registration timestamp t0, and the values chunked into records of
exactly BUFFER_SIZE intervals each. -/
theorem producer_interval_law (t0 : Int) (ts : List Int)
    (_hmono : List.Chain (fun a b => a < b) t0 ts) :
    producedIntervals (runEvents (registerGpioData t0) ts) = diffsMod t0 ts ∧
    ∀ r ∈ (runEvents (registerGpioData t0) ts).queue.freed
        ++ (runEvents (registerGpioData t0) ts).queue.elems,
      r.length = BUFFER_SIZE := by
  obtain ⟨hp, hr⟩ := runEvents_produced ts (registerGpioData t0) [] rfl
    (by decide) (by intro r hrm; exact absurd hrm (by simp [registerGpioData, ReadQueue.empty]))
  refine ⟨?_, hr⟩
  rw [hp]
  rfl

/-- Witness for `producer_interval_law`: registration at 0, events at 1
and 3, intervals [1, 2]. -/
theorem producer_interval_law_witness :
    producedIntervals (runEvents (registerGpioData 0) [1, 3]) = diffsMod 0 [1, 3] ∧
    diffsMod 0 [1, 3] = [1, 2] :=
  ⟨(producer_interval_law 0 [1, 3]
      (List.Chain.cons (by decide) (List.Chain.cons (by decide) List.Chain.nil))).1,
   by decide⟩

/-- C10: the value the handler stores for an event at time `t` is the
signed microsecond delta `t - lastInterruptTime` reduced modulo 2^32 (the
`unsigned int` store), and whenever two consecutive events lie more than
2^32 microseconds apart the recorded interval is not the true elapsed
time. -/
theorem interval_wraps_mod32 (g : GpioData) (wb : List Nat) (t : Int)
    (g' : GpioData) (hwb : g.writeBuf = some wb)
    (h : gpio_irq_handler true true true t g = .ok g') :
    producedIntervals g' =
      producedIntervals g ++ [((t - g.lastInterruptTime) % UINT_MOD).toNat] ∧
    (UINT_MOD < t - g.lastInterruptTime →
      (((t - g.lastInterruptTime) % UINT_MOD).toNat : Int)
        ≠ t - g.lastInterruptTime) := by
  constructor
  · by_cases hfull : wb.length + 1 < BUFFER_SIZE
    · rw [handler_true_norot t g wb hwb hfull] at h
      injection h with h2
      subst h2
      unfold producedIntervals uintCast
      rw [hwb]
      simp [List.append_assoc]
    · rw [handler_true_rot t g wb hwb (by omega)] at h
      injection h with h2
      subst h2
      unfold producedIntervals uintCast
      rw [hwb]
      simp only [Option.getD_some, List.append_nil]
      rw [produced_queue_append]
      simp [List.append_assoc]
  · intro hgt
    have hM : (0 : Int) < UINT_MOD := by decide
    have h1 : (t - g.lastInterruptTime) % UINT_MOD < UINT_MOD :=
      Int.emod_lt_of_pos _ hM
    have h2 : 0 ≤ (t - g.lastInterruptTime) % UINT_MOD :=
      Int.emod_nonneg _ (by decide)
    rw [Int.toNat_of_nonneg h2]
    omega

/-- Witness for `interval_wraps_mod32`: one event 2^32 + 1 microseconds
after registration; the stored interval is 1. -/
theorem interval_wraps_mod32_witness :
    producedIntervals
      { writeBuf := some [1], lastInterruptTime := 4294967297,
        queue := ReadQueue.empty } =
      producedIntervals (registerGpioData 0)
        ++ [((4294967297 - (registerGpioData 0).lastInterruptTime) % UINT_MOD).toNat] ∧
    (UINT_MOD < 4294967297 - (registerGpioData 0).lastInterruptTime →
      (((4294967297 - (registerGpioData 0).lastInterruptTime) % UINT_MOD).toNat : Int)
        ≠ 4294967297 - (registerGpioData 0).lastInterruptTime) :=
  interval_wraps_mod32 (registerGpioData 0) [] 4294967297
    { writeBuf := some [1], lastInterruptTime := 4294967297,
      queue := ReadQueue.empty } rfl (by decide)

end IrqTimings
